import Mathlib

/-!
Shallow embedding of `tensorflow/core/util/ctc/ctc_beam_scorer.h`
(CTC beam-scoring classes: `LabelToCharacterTranslator`, `KenLMBeamScorer`,
`PrefixScorer`).

Scores are `float` in the source; they are modelled as `ℚ`.  Every score
update in the source is a plain assignment of a previously computed value,
so exact rational arithmetic is a faithful model of the data flow the
claims talk about.  `std::log10` is modelled as an abstract function
carried by the scorer (the claims only constrain *what* is passed to it,
never its numeric value).

The KenLM language model (`lm/model.hh`, third-party) is external to the
repository; it is modelled, as the spec's oracle contract describes, by a
structure of functions over an abstract model-state type `σ`.
-/

namespace CtcBeamScorer

/-- `LabelToCharacterTranslator::IsBlankLabel`: label 28 is the blank. -/
def IsBlankLabel (label : Int) : Bool := label == 28

/-- `LabelToCharacterTranslator::IsSpaceLabel`: label 27 is the word separator. -/
def IsSpaceLabel (label : Int) : Bool := label == 27

/-- `LabelToCharacterTranslator::GetCharacterFromLabel`: 26 is the apostrophe
(code 39), 27 the space (code 32), otherwise `label + 'a'` (code 97). -/
def GetCharacterFromLabel (label : Int) : Char :=
  if label == 26 then Char.ofNat 39
  else if label == 27 then Char.ofNat 32
  else Char.ofNat (label + 97).toNat

/-- Modelled from the spec: the trie oracle contract (`TrieNode<27>` of
`ctc_trie_node.h` is not part of the given sources).  The spec requires only
`GetChildAt(symbol) -> Option<NodeRef>` and `GetFrequency() -> count` on
every node; a node is a corpus frequency count together with a finite map
from child symbols to child nodes. -/
inductive TrieNode : Type where
  | node (frequency : Nat) (children : List (Int × TrieNode)) : TrieNode

/-- `TrieNode::GetFrequency`: the corpus count stored at the node. -/
def TrieNode.GetFrequency : TrieNode → Nat
  | .node f _ => f

/-- `TrieNode::GetChildAt`: child lookup by symbol; empty when absent. -/
def TrieNode.GetChildAt : TrieNode → Int → Option TrieNode
  | .node _ cs, l =>
    match cs.find? (fun p => p.1 == l) with
    | some p => some p.2
    | none => none

/-- The KenLM language-model oracle contract (spec §6): begin state, a
full-context scoring operation returning a log-probability and an updated
state, vocabulary lookup, and a distinguished end-of-sequence token.
Word indices are `Nat`. -/
structure LMOracle (σ : Type) where
  beginSentenceState : σ
  fullScore : σ → Nat → ℚ × σ
  index : String → Nat
  endSentence : Nat

/-- `KenLMBeamState` (from `ctc_beam_entry.h`, whose fields are pinned by
the spec's data model and by every use in `ctc_beam_scorer.h`). -/
structure KenLMBeamState (σ : Type) where
  language_model_score : ℚ
  score : ℚ
  delta_score : ℚ
  incomplete_word : String
  incomplete_word_trie_node : Option TrieNode
  model_state : σ

/-- The immutable resources a `KenLMBeamScorer` owns: the model, the trie
root, and the `std::log10` primitive (abstract, see the file header). -/
structure KenLMBeamScorer (σ : Type) where
  model : LMOracle σ
  trieRoot : TrieNode
  log10 : ℚ → ℚ

variable {σ : Type}

/-- `KenLMBeamScorer::InitializeState`. -/
def KenLMBeamScorer.InitializeState (sc : KenLMBeamScorer σ) : KenLMBeamState σ :=
  { language_model_score := 0
    score := 0
    delta_score := 0
    incomplete_word := ""
    incomplete_word_trie_node := some sc.trieRoot
    model_state := sc.model.beginSentenceState }

/-- `KenLMBeamScorer::UpdateWithLMScore`. -/
def KenLMBeamScorer.UpdateWithLMScore (state : KenLMBeamState σ) (lm_score : ℚ) :
    KenLMBeamState σ :=
  { state with
    language_model_score := lm_score
    score := lm_score
    delta_score := lm_score - state.score }

/-- `KenLMBeamScorer::ResetIncompleteWord` (the one-argument private member). -/
def KenLMBeamScorer.ResetIncompleteWord (sc : KenLMBeamScorer σ) (state : KenLMBeamState σ) :
    KenLMBeamState σ :=
  { state with
    incomplete_word := ""
    incomplete_word_trie_node := some sc.trieRoot }

/-- `KenLMBeamScorer::ScoreIncompleteWord`: vocabulary lookup of the word
followed by one full-context model query; returns the log-probability and
the output model state (the C++ out-parameter). -/
def KenLMBeamScorer.ScoreIncompleteWord (sc : KenLMBeamScorer σ) (model_state : σ)
    (word : String) : ℚ × σ :=
  sc.model.fullScore model_state (sc.model.index word)

/-- `KenLMBeamScorer::CopyState`: field-by-field copy of the parent state. -/
def KenLMBeamScorer.CopyState (f : KenLMBeamState σ) : KenLMBeamState σ :=
  { language_model_score := f.language_model_score
    score := f.score
    delta_score := f.delta_score
    incomplete_word := f.incomplete_word
    incomplete_word_trie_node := f.incomplete_word_trie_node
    model_state := f.model_state }

/-- `KenLMBeamScorer::ExpandState`, translated branch for branch.

In the word-separator branch the source line 171 reads
`ResetIncompleteWord();` — it passes no state to the one-argument private
member `ResetIncompleteWord(KenLMBeamState*)` (ill-formed C++ as written),
so no reset of `to_state` happens there; the embedding models that line as
having no effect on the child state. -/
def KenLMBeamScorer.ExpandState (sc : KenLMBeamScorer σ) (from_state : KenLMBeamState σ)
    (from_label : Int) (to_label : Int) : KenLMBeamState σ :=
  let to_state := KenLMBeamScorer.CopyState from_state
  if from_label == to_label || IsBlankLabel to_label then
    { to_state with delta_score := 0 }
  else if !IsSpaceLabel to_label then
    let to_state :=
      { to_state with
        incomplete_word := to_state.incomplete_word.push (GetCharacterFromLabel to_label) }
    match from_state.incomplete_word_trie_node with
    | none =>
      let s := (-10 : ℚ) + to_state.language_model_score
      { to_state with score := s, delta_score := s - from_state.score }
    | some trie_node =>
      match trie_node.GetChildAt to_label with
      | none =>
        let s := (-10 : ℚ) + to_state.language_model_score
        { to_state with
          incomplete_word_trie_node := none
          score := s
          delta_score := s - from_state.score }
      | some child =>
        let pp :=
          sc.log10 ((child.GetFrequency : ℚ) / (sc.trieRoot.GetFrequency : ℚ))
        let s := pp + to_state.language_model_score
        { to_state with
          incomplete_word_trie_node := some child
          score := s
          delta_score := s - from_state.score }
  else
    let r := sc.ScoreIncompleteWord from_state.model_state to_state.incomplete_word
    let to_state := { to_state with model_state := r.2 }
    KenLMBeamScorer.UpdateWithLMScore to_state r.1

/-- `KenLMBeamScorer::ExpandStateEnd`: flush a pending incomplete word into
the model state (the word's own returned score is not read), then score the
end-of-sequence token and fold it in with `UpdateWithLMScore`. -/
def KenLMBeamScorer.ExpandStateEnd (sc : KenLMBeamScorer σ) (state : KenLMBeamState σ) :
    KenLMBeamState σ :=
  let state :=
    if 0 < state.incomplete_word.length then
      let r := sc.ScoreIncompleteWord state.model_state state.incomplete_word
      let state := sc.ResetIncompleteWord state
      { state with model_state := r.2 }
    else state
  let full_score_return := sc.model.fullScore state.model_state sc.model.endSentence
  KenLMBeamScorer.UpdateWithLMScore state full_score_return.1

/-- `KenLMBeamScorer::GetStateExpansionScore`. -/
def KenLMBeamScorer.GetStateExpansionScore (state : KenLMBeamState σ)
    (previous_score : ℚ) : ℚ :=
  state.delta_score + previous_score

/-- `KenLMBeamScorer::GetStateEndExpansionScore`. -/
def KenLMBeamScorer.GetStateEndExpansionScore (state : KenLMBeamState σ) : ℚ :=
  state.delta_score

/-- `PrefixBeamState` (from `ctc_beam_entry.h`; fields pinned by the spec's
data model and by every use in `ctc_beam_scorer.h`). -/
structure PrefixBeamState where
  prob : ℚ
  node : Option TrieNode

/-- The immutable resource a `PrefixScorer` owns: the trie root. -/
structure PrefixScorer where
  trieRoot : TrieNode

/-- `PrefixScorer::InitializeState`. -/
def PrefixScorer.InitializeState (sc : PrefixScorer) : PrefixBeamState :=
  { prob := 0, node := some sc.trieRoot }

/-- `PrefixScorer::CopyState`. -/
def PrefixScorer.CopyState (f : PrefixBeamState) : PrefixBeamState :=
  { prob := f.prob, node := f.node }

/-- `PrefixScorer::ExpandState`, translated branch for branch. -/
def PrefixScorer.ExpandState (sc : PrefixScorer) (from_state : PrefixBeamState)
    (from_label : Int) (to_label : Int) : PrefixBeamState :=
  let to_state := PrefixScorer.CopyState from_state
  if from_label == to_label || IsBlankLabel to_label then
    to_state
  else if IsSpaceLabel to_label then
    { to_state with node := some sc.trieRoot }
  else
    match to_state.node with
    | none => to_state
    | some n =>
      match n.GetChildAt to_label with
      | none => { to_state with node := none, prob := to_state.prob - 1 }
      | some c => { to_state with node := some c }

/-- `PrefixScorer::ExpandStateEnd` is a no-op. -/
def PrefixScorer.ExpandStateEnd (state : PrefixBeamState) : PrefixBeamState :=
  state

/-- `PrefixScorer::GetStateExpansionScore`: returns the accumulated `prob`;
the `previous_score` argument is not used. -/
def PrefixScorer.GetStateExpansionScore (state : PrefixBeamState)
    (previous_score : ℚ) : ℚ :=
  state.prob

/-- `PrefixScorer::GetStateEndExpansionScore`. -/
def PrefixScorer.GetStateEndExpansionScore (state : PrefixBeamState) : ℚ :=
  state.prob

/-! Concrete instances used to evaluate the embedding. -/

/-- Concrete trie: child of the root at label 7 with frequency 5, whose own
child at label 19 has frequency 3. -/
def demoTrieHT : TrieNode := TrieNode.node 3 []

def demoTrieH : TrieNode := TrieNode.node 5 [(19, demoTrieHT)]

def demoTrie : TrieNode := TrieNode.node 1000 [(7, demoTrieH)]

/-- Concrete language-model oracle over `Nat` states: the score of a token is
the token itself and each query advances the state by one. -/
def demoModel : LMOracle Nat :=
  { beginSentenceState := 0
    fullScore := fun s t => ((t : ℚ), s + 1)
    index := fun w => w.length
    endSentence := 9 }

def demoScorer : KenLMBeamScorer Nat :=
  { model := demoModel, trieRoot := demoTrie, log10 := fun q => q - 100 }

/-- A beam state holding the pending word "h" with an empty trie position. -/
def wordState : KenLMBeamState Nat :=
  { language_model_score := 0
    score := 0
    delta_score := 0
    incomplete_word := "h"
    incomplete_word_trie_node := none
    model_state := 0 }

def demoPScorer : PrefixScorer := { trieRoot := demoTrie }

def pWordState : PrefixBeamState := { prob := 0, node := none }

/-! Helper lemmas shared by the claim theorems. -/

theorem kenlm_expand_collapse (sc : KenLMBeamScorer σ) (S : KenLMBeamState σ)
    {from_label to_label : Int}
    (hc : (from_label == to_label || IsBlankLabel to_label) = true) :
    sc.ExpandState S from_label to_label = { S with delta_score := 0 } := by
  simp [KenLMBeamScorer.ExpandState, hc, KenLMBeamScorer.CopyState]

theorem prefix_expand_collapse (sc : PrefixScorer) (S : PrefixBeamState)
    {from_label to_label : Int}
    (hc : (from_label == to_label || IsBlankLabel to_label) = true) :
    sc.ExpandState S from_label to_label = S := by
  simp [PrefixScorer.ExpandState, hc, PrefixScorer.CopyState]

/-! Claim theorems. -/

/-- C8: for the language-model scorer, `GetStateExpansionScore state p` equals
`state.delta_score + p`, and `GetStateEndExpansionScore state` equals
`state.delta_score`, for every state and every `p`. -/
theorem kenlm_get_expansion_scores (σ : Type) (state : KenLMBeamState σ) (p : ℚ) :
    KenLMBeamScorer.GetStateExpansionScore state p = state.delta_score + p ∧
    KenLMBeamScorer.GetStateEndExpansionScore state = state.delta_score :=
  ⟨rfl, rfl⟩

/-- C7: for the language-model scorer, after every `ExpandState` and every
`ExpandStateEnd` transition, `delta_score` equals the state's score after the
transition minus its score before. -/
theorem kenlm_delta_score_consistent (σ : Type) (sc : KenLMBeamScorer σ)
    (S : KenLMBeamState σ) :
    (∀ from_label to_label : Int,
      (sc.ExpandState S from_label to_label).delta_score =
        (sc.ExpandState S from_label to_label).score - S.score) ∧
    (sc.ExpandStateEnd S).delta_score = (sc.ExpandStateEnd S).score - S.score := by
  constructor
  · intro from_label to_label
    unfold KenLMBeamScorer.ExpandState
    cases hc : (from_label == to_label || IsBlankLabel to_label) with
    | true => simp [KenLMBeamScorer.CopyState]
    | false =>
      cases hs : IsSpaceLabel to_label with
      | false =>
        cases hn : S.incomplete_word_trie_node with
        | none => simp [hn, KenLMBeamScorer.CopyState]
        | some tn =>
          cases hch : tn.GetChildAt to_label with
          | none => simp [hn, hch, KenLMBeamScorer.CopyState]
          | some c => simp [hn, hch, KenLMBeamScorer.CopyState]
      | true =>
        simp [KenLMBeamScorer.CopyState, KenLMBeamScorer.UpdateWithLMScore]
  · unfold KenLMBeamScorer.ExpandStateEnd
    by_cases hl : 0 < S.incomplete_word.length
    · simp [hl, KenLMBeamScorer.UpdateWithLMScore, KenLMBeamScorer.ResetIncompleteWord]
    · simp [hl, KenLMBeamScorer.UpdateWithLMScore]

/-- C5: for any state and any symbol equal to the previous symbol or equal to
the blank, `ExpandState` yields `delta_score = 0` and all other fields
unchanged, for both the language-model scorer and the prefix-only scorer. -/
theorem collapsing_rule (σ : Type) (sc : KenLMBeamScorer σ) (S : KenLMBeamState σ)
    (psc : PrefixScorer) (P : PrefixBeamState) (from_label to_label : Int)
    (h : from_label = to_label ∨ IsBlankLabel to_label = true) :
    sc.ExpandState S from_label to_label = { S with delta_score := 0 } ∧
    psc.ExpandState P from_label to_label = P := by
  have hc : (from_label == to_label || IsBlankLabel to_label) = true := by
    rcases h with h | h
    · simp [h]
    · simp [h]
  exact ⟨kenlm_expand_collapse sc S hc, prefix_expand_collapse psc P hc⟩

theorem collapsing_rule_witness :
    ((3 : Int) = 3 ∨ IsBlankLabel 3 = true) ∧
    (demoScorer.ExpandState wordState 3 3 = { wordState with delta_score := 0 } ∧
     demoPScorer.ExpandState pWordState 3 3 = pWordState) :=
  ⟨Or.inl rfl,
   collapsing_rule Nat demoScorer wordState demoPScorer pWordState 3 3 (Or.inl rfl)⟩

/-- C9: when both the previous and the new symbol are the word separator, the
collapsing branch takes precedence for both scorers: the child is an
unchanged copy of the parent (with `delta_score = 0` in the language-model
scorer); in particular no model query and no word-boundary reset happen. -/
theorem separator_collapse_precedence (σ : Type) (sc : KenLMBeamScorer σ)
    (S : KenLMBeamState σ) (psc : PrefixScorer) (P : PrefixBeamState)
    (from_label to_label : Int) (h1 : IsSpaceLabel from_label = true)
    (h2 : IsSpaceLabel to_label = true) :
    sc.ExpandState S from_label to_label = { S with delta_score := 0 } ∧
    psc.ExpandState P from_label to_label = P := by
  have e1 : from_label = 27 := by simpa [IsSpaceLabel] using h1
  have e2 : to_label = 27 := by simpa [IsSpaceLabel] using h2
  have hc : (from_label == to_label || IsBlankLabel to_label) = true := by
    simp [e1, e2]
  exact ⟨kenlm_expand_collapse sc S hc, prefix_expand_collapse psc P hc⟩

theorem separator_collapse_precedence_witness :
    IsSpaceLabel 27 = true ∧
    (demoScorer.ExpandState wordState 27 27 = { wordState with delta_score := 0 } ∧
     demoPScorer.ExpandState pWordState 27 27 = pWordState) :=
  ⟨rfl,
   separator_collapse_precedence Nat demoScorer wordState demoPScorer pWordState
     27 27 rfl rfl⟩

/-- C3: counterexample to the claim for the prefix-only scorer — there is no
incremental value that `GetStateExpansionScore` combines with `previousScore`
by addition, because the returned value does not vary with `previousScore`. -/
theorem prefix_expansion_ignores_previous :
    ¬ ∃ d : ℚ, ∀ p : ℚ,
      PrefixScorer.GetStateExpansionScore { prob := 0, node := none } p = d + p := by
  rintro ⟨d, h⟩
  have h0 := h 0
  have h1 := h 1
  simp only [PrefixScorer.GetStateExpansionScore] at h0 h1
  have : (0 : ℚ) = 1 := by linarith
  simp at this

/-- C3 (amended): the language-model scorer's `GetStateExpansionScore`
combines its cached incremental score with `previousScore` by addition, while
the prefix-only scorer's returns the accumulated `prob` and ignores
`previousScore`. -/
theorem expansion_score_combination (σ : Type) (st : KenLMBeamState σ)
    (pst : PrefixBeamState) (p q : ℚ) :
    KenLMBeamScorer.GetStateExpansionScore st p = st.delta_score + p ∧
    PrefixScorer.GetStateExpansionScore pst q = pst.prob :=
  ⟨rfl, rfl⟩

/-- C4: on a non-separator, non-blank, non-repeated symbol the language-model
scorer moves the trie position to the looked-up child and scores the proxy as
`log10(child frequency / root frequency)` when the lookup succeeds; when the
parent's trie position is empty, or the lookup fails, the trie position is
empty and the proxy is the fixed floor `-10`; in all cases the new score is
the proxy plus `language_model_score` and `delta_score` is the new score
minus the parent's score. -/
theorem kenlm_midword_scoring (σ : Type) (sc : KenLMBeamScorer σ)
    (S : KenLMBeamState σ) (from_label to_label : Int)
    (hne : from_label ≠ to_label) (hb : IsBlankLabel to_label = false)
    (hs : IsSpaceLabel to_label = false) :
    (∀ n c, S.incomplete_word_trie_node = some n → n.GetChildAt to_label = some c →
      (sc.ExpandState S from_label to_label).incomplete_word_trie_node = some c ∧
      (sc.ExpandState S from_label to_label).score =
        sc.log10 ((c.GetFrequency : ℚ) / (sc.trieRoot.GetFrequency : ℚ)) +
          S.language_model_score ∧
      (sc.ExpandState S from_label to_label).delta_score =
        (sc.ExpandState S from_label to_label).score - S.score) ∧
    (S.incomplete_word_trie_node = none →
      (sc.ExpandState S from_label to_label).incomplete_word_trie_node = none ∧
      (sc.ExpandState S from_label to_label).score = -10 + S.language_model_score ∧
      (sc.ExpandState S from_label to_label).delta_score =
        (sc.ExpandState S from_label to_label).score - S.score) ∧
    (∀ n, S.incomplete_word_trie_node = some n → n.GetChildAt to_label = none →
      (sc.ExpandState S from_label to_label).incomplete_word_trie_node = none ∧
      (sc.ExpandState S from_label to_label).score = -10 + S.language_model_score ∧
      (sc.ExpandState S from_label to_label).delta_score =
        (sc.ExpandState S from_label to_label).score - S.score) := by
  have hc : (from_label == to_label || IsBlankLabel to_label) = false := by
    simp [hb, hne]
  refine ⟨?_, ?_, ?_⟩
  · intro n c hn hch
    simp [KenLMBeamScorer.ExpandState, hc, hs, hn, hch, KenLMBeamScorer.CopyState]
  · intro hn
    simp [KenLMBeamScorer.ExpandState, hc, hs, hn, KenLMBeamScorer.CopyState]
  · intro n hn hch
    simp [KenLMBeamScorer.ExpandState, hc, hs, hn, hch, KenLMBeamScorer.CopyState]

theorem kenlm_midword_scoring_witness :
    ((0 : Int) ≠ 7) ∧
    ((demoScorer.ExpandState demoScorer.InitializeState 0 7).incomplete_word_trie_node =
        some demoTrieH ∧
      (demoScorer.ExpandState demoScorer.InitializeState 0 7).score =
        demoScorer.log10
            ((demoTrieH.GetFrequency : ℚ) / (demoScorer.trieRoot.GetFrequency : ℚ)) +
          demoScorer.InitializeState.language_model_score ∧
      (demoScorer.ExpandState demoScorer.InitializeState 0 7).delta_score =
        (demoScorer.ExpandState demoScorer.InitializeState 0 7).score -
          demoScorer.InitializeState.score) :=
  ⟨by decide,
   (kenlm_midword_scoring Nat demoScorer demoScorer.InitializeState 0 7
       (by decide) rfl rfl).1 demoTrie demoTrieH rfl rfl⟩

/-- C10: once the language-model scorer's trie position is empty mid-word,
the first out-of-vocabulary step sets `score` to the floor `-10` plus
`language_model_score` (leaving `language_model_score` itself unchanged), and
every further non-separator, non-blank, non-repeated step recomputes the same
value, so the score is unchanged and `delta_score = 0`: the floor lowers the
score only once per word. -/
theorem kenlm_oov_sticky_delta_zero (σ : Type) (sc : KenLMBeamScorer σ)
    (S : KenLMBeamState σ) (from_label to_label : Int)
    (hne : from_label ≠ to_label) (hb : IsBlankLabel to_label = false)
    (hs : IsSpaceLabel to_label = false) :
    (∀ n, S.incomplete_word_trie_node = some n → n.GetChildAt to_label = none →
      (sc.ExpandState S from_label to_label).score = -10 + S.language_model_score ∧
      (sc.ExpandState S from_label to_label).language_model_score =
        S.language_model_score ∧
      (sc.ExpandState S from_label to_label).incomplete_word_trie_node = none) ∧
    (S.incomplete_word_trie_node = none →
      S.score = -10 + S.language_model_score →
      (sc.ExpandState S from_label to_label).score = S.score ∧
      (sc.ExpandState S from_label to_label).delta_score = 0 ∧
      (sc.ExpandState S from_label to_label).language_model_score =
        S.language_model_score ∧
      (sc.ExpandState S from_label to_label).incomplete_word_trie_node = none) := by
  have hc : (from_label == to_label || IsBlankLabel to_label) = false := by
    simp [hb, hne]
  constructor
  · intro n hn hch
    simp [KenLMBeamScorer.ExpandState, hc, hs, hn, hch, KenLMBeamScorer.CopyState]
  · intro hn hsc
    refine ⟨?_, ?_, ?_, ?_⟩ <;>
      simp [KenLMBeamScorer.ExpandState, hc, hs, hn, KenLMBeamScorer.CopyState, hsc]

/-- A concrete beam state that is mid-word out-of-vocabulary: empty trie
position with `score = -10 + language_model_score` already holding. -/
def oovState : KenLMBeamState Nat :=
  { language_model_score := 2
    score := -8
    delta_score := 0
    incomplete_word := "x"
    incomplete_word_trie_node := none
    model_state := 0 }

theorem kenlm_oov_sticky_delta_zero_witness :
    ((0 : Int) ≠ 7 ∧ oovState.incomplete_word_trie_node = none ∧
      oovState.score = -10 + oovState.language_model_score) ∧
    ((demoScorer.ExpandState oovState 0 7).score = oovState.score ∧
     (demoScorer.ExpandState oovState 0 7).delta_score = 0 ∧
     (demoScorer.ExpandState oovState 0 7).language_model_score =
       oovState.language_model_score ∧
     (demoScorer.ExpandState oovState 0 7).incomplete_word_trie_node = none) :=
  ⟨⟨by decide, rfl, by norm_num [oovState]⟩,
   (kenlm_oov_sticky_delta_zero Nat demoScorer oovState 0 7
       (by decide) rfl rfl).2 rfl (by norm_num [oovState])⟩

/-- C2: evaluation of the word-separator expansion at a concrete state: the
source's separator branch calls `ResetIncompleteWord` with no state argument
(line 171), so the child keeps the parent's `incomplete_word` and trie
position instead of being reset to the empty word and the trie root. -/
theorem separator_no_reset_eval :
    (demoScorer.ExpandState wordState 7 27).incomplete_word = "h" ∧
    "h" ≠ "" ∧
    (demoScorer.ExpandState wordState 7 27).incomplete_word_trie_node = none :=
  ⟨rfl, by decide, rfl⟩

/-- C1: counterexample to the additive reading — at a concrete scorer and
state with pending word "h", the flushed word's own score is `1` and the
end-of-sequence score is `9`, yet the final `language_model_score` is `9`,
not `1 + 9`: the word's returned score is discarded. -/
theorem end_flush_not_additive :
    (demoScorer.ExpandStateEnd wordState).language_model_score = 9 ∧
    (demoScorer.ScoreIncompleteWord wordState.model_state
        wordState.incomplete_word).1 = 1 ∧
    (demoScorer.model.fullScore
        (demoScorer.ScoreIncompleteWord wordState.model_state
          wordState.incomplete_word).2
        demoScorer.model.endSentence).1 = 9 ∧
    (9 : ℚ) ≠ 1 + 9 :=
  ⟨rfl, rfl, rfl, by norm_num⟩

/-- C1 (amended): at `ExpandStateEnd`, a non-empty `incomplete_word` is
flushed through the model only to advance `model_state` (its returned score
is discarded) and the word buffer is reset; the final `language_model_score`
equals the end-of-sequence token's score queried from the post-flush model
state.  When `incomplete_word` is empty, it equals the end-of-sequence score
queried from the unchanged model state. -/
theorem kenlm_expand_state_end_scores (σ : Type) (sc : KenLMBeamScorer σ)
    (S : KenLMBeamState σ) :
    (0 < S.incomplete_word.length →
      (sc.ExpandStateEnd S).language_model_score =
        (sc.model.fullScore
            (sc.model.fullScore S.model_state (sc.model.index S.incomplete_word)).2
            sc.model.endSentence).1 ∧
      (sc.ExpandStateEnd S).model_state =
        (sc.model.fullScore S.model_state (sc.model.index S.incomplete_word)).2 ∧
      (sc.ExpandStateEnd S).incomplete_word = "") ∧
    (S.incomplete_word.length = 0 →
      (sc.ExpandStateEnd S).language_model_score =
        (sc.model.fullScore S.model_state sc.model.endSentence).1 ∧
      (sc.ExpandStateEnd S).model_state = S.model_state) := by
  constructor
  · intro hl
    simp [KenLMBeamScorer.ExpandStateEnd, hl, KenLMBeamScorer.ScoreIncompleteWord,
      KenLMBeamScorer.ResetIncompleteWord, KenLMBeamScorer.UpdateWithLMScore]
  · intro hl
    simp [KenLMBeamScorer.ExpandStateEnd, hl, KenLMBeamScorer.UpdateWithLMScore]

theorem kenlm_expand_state_end_scores_witness :
    0 < wordState.incomplete_word.length ∧
    ((demoScorer.ExpandStateEnd wordState).language_model_score =
        (demoScorer.model.fullScore
            (demoScorer.model.fullScore wordState.model_state
              (demoScorer.model.index wordState.incomplete_word)).2
            demoScorer.model.endSentence).1 ∧
      (demoScorer.ExpandStateEnd wordState).model_state =
        (demoScorer.model.fullScore wordState.model_state
          (demoScorer.model.index wordState.incomplete_word)).2 ∧
      (demoScorer.ExpandStateEnd wordState).incomplete_word = "") :=
  ⟨by decide,
   (kenlm_expand_state_end_scores Nat demoScorer wordState).1 (by decide)⟩

theorem prefix_expand_oov_noop (sc : PrefixScorer) (S : PrefixBeamState)
    (from_label to_label : Int) (hn : S.node = none)
    (hs : IsSpaceLabel to_label = false) :
    sc.ExpandState S from_label to_label = S := by
  obtain ⟨p, nd⟩ := S
  have hn2 : nd = none := hn
  subst hn2
  unfold PrefixScorer.ExpandState
  cases hc : (from_label == to_label || IsBlankLabel to_label) with
  | true => simp [PrefixScorer.CopyState]
  | false => simp [hs, PrefixScorer.CopyState]

theorem prefix_expand_prob_step (sc : PrefixScorer) (S : PrefixBeamState)
    (from_label to_label : Int) (hs : IsSpaceLabel to_label = false) :
    (sc.ExpandState S from_label to_label).prob = S.prob ∨
    ((sc.ExpandState S from_label to_label).prob = S.prob - 1 ∧
     (sc.ExpandState S from_label to_label).node = none) := by
  unfold PrefixScorer.ExpandState
  cases hc : (from_label == to_label || IsBlankLabel to_label) with
  | true => left; simp [PrefixScorer.CopyState]
  | false =>
    cases hn : S.node with
    | none => left; simp [hs, PrefixScorer.CopyState, hn]
    | some n =>
      cases hch : n.GetChildAt to_label with
      | none => right; simp [hs, PrefixScorer.CopyState, hn, hch]
      | some c => left; simp [hs, PrefixScorer.CopyState, hn, hch]

theorem prefix_fold_oov_noop (sc : PrefixScorer) (steps : List (Int × Int)) :
    ∀ S : PrefixBeamState, S.node = none →
      (∀ s ∈ steps, IsSpaceLabel s.2 = false) →
      steps.foldl (fun st s => sc.ExpandState st s.1 s.2) S = S := by
  induction steps with
  | nil => intro S _ _; rfl
  | cons a rest ih =>
    intro S hn hall
    have h1 : sc.ExpandState S a.1 a.2 = S :=
      prefix_expand_oov_noop sc S a.1 a.2 hn (hall a (List.mem_cons_self a rest))
    simp only [List.foldl_cons, h1]
    exact ih S hn (fun s hsm => hall s (List.mem_cons_of_mem a hsm))

theorem prefix_fold_prob_cases (sc : PrefixScorer) (steps : List (Int × Int)) :
    ∀ S : PrefixBeamState, (∀ s ∈ steps, IsSpaceLabel s.2 = false) →
      (steps.foldl (fun st s => sc.ExpandState st s.1 s.2) S).prob = S.prob ∨
      ((steps.foldl (fun st s => sc.ExpandState st s.1 s.2) S).prob = S.prob - 1 ∧
       (steps.foldl (fun st s => sc.ExpandState st s.1 s.2) S).node = none) := by
  induction steps with
  | nil => intro S _; left; rfl
  | cons a rest ih =>
    intro S hall
    have hs : IsSpaceLabel a.2 = false := hall a (List.mem_cons_self a rest)
    have hrest : ∀ s ∈ rest, IsSpaceLabel s.2 = false :=
      fun s hsm => hall s (List.mem_cons_of_mem a hsm)
    simp only [List.foldl_cons]
    rcases prefix_expand_prob_step sc S a.1 a.2 hs with h | ⟨hp, hn⟩
    · rcases ih (sc.ExpandState S a.1 a.2) hrest with h2 | ⟨h2, h3⟩
      · left; rw [h2, h]
      · right; exact ⟨by rw [h2, h], h3⟩
    · have hfix := prefix_fold_oov_noop sc rest (sc.ExpandState S a.1 a.2) hn hrest
      right; rw [hfix]; exact ⟨hp, hn⟩

/-- C6: for the prefix-only scorer, (i) once the trie position is empty,
every further non-boundary `ExpandState` in the word leaves the whole state
(in particular `prob`) unchanged; (ii) the first symbol whose trie lookup
fails subtracts exactly `1.0` from `prob` and empties the trie position;
(iii) hence over any run of expansions containing no word separator, `prob`
drops by exactly `1` or not at all — the penalty is applied at most once per
word. -/
theorem prefix_penalty_once (sc : PrefixScorer) :
    (∀ (S : PrefixBeamState) (from_label to_label : Int),
      S.node = none → IsSpaceLabel to_label = false →
      sc.ExpandState S from_label to_label = S) ∧
    (∀ (S : PrefixBeamState) (from_label to_label : Int) (n : TrieNode),
      from_label ≠ to_label → IsBlankLabel to_label = false →
      IsSpaceLabel to_label = false →
      S.node = some n → n.GetChildAt to_label = none →
      (sc.ExpandState S from_label to_label).prob = S.prob - 1 ∧
      (sc.ExpandState S from_label to_label).node = none) ∧
    (∀ (steps : List (Int × Int)) (S : PrefixBeamState),
      (∀ s ∈ steps, IsSpaceLabel s.2 = false) →
      (steps.foldl (fun st s => sc.ExpandState st s.1 s.2) S).prob = S.prob ∨
      (steps.foldl (fun st s => sc.ExpandState st s.1 s.2) S).prob = S.prob - 1) := by
  refine ⟨?_, ?_, ?_⟩
  · intro S from_label to_label hn hs
    exact prefix_expand_oov_noop sc S from_label to_label hn hs
  · intro S from_label to_label n hne hb hs hn hch
    have hc : (from_label == to_label || IsBlankLabel to_label) = false := by
      simp [hb, hne]
    constructor <;> simp [PrefixScorer.ExpandState, hc, hs, hn, hch,
      PrefixScorer.CopyState]
  · intro steps S hall
    rcases prefix_fold_prob_cases sc steps S hall with h | ⟨h, _⟩
    · exact Or.inl h
    · exact Or.inr h

theorem prefix_penalty_once_witness :
    (pWordState.node = none ∧ IsSpaceLabel 7 = false) ∧
    demoPScorer.ExpandState pWordState 0 7 = pWordState :=
  ⟨⟨rfl, rfl⟩,
   (prefix_penalty_once demoPScorer).1 pWordState 0 7 rfl rfl⟩

end CtcBeamScorer
